import Mathlib

/-!
Verification of the gostream remote-view streaming engine
(pkg gostream, basicRemoteView) and the direct input relay
(pkg input/direct), shallowly embedded from the Go source.

Conventions of the embedding:
* Go maps keyed by peer connections become association lists with
  Nat peer identities (keys are unique in reachable states).
* Channels drained by a single loop become the list of values the
  loop consumes, in order; a run is modelled without lifecycle
  cancellation (the shutdownCtx branches are the non-cancelled ones).
* Fallible Go calls return Option or Except; a Go panic is recorded
  explicitly in the result of the modelled function.
-/

namespace GoStream

/-! ## Connection registry (basicRemoteView.peerToRemoteClient) -/

/-- Go: brv.addRemoteClient — map assignment peerToRemoteClient[pc] = rc,
replacing any prior entry under the same key. -/
def addRemoteClient {E : Type} (m : List (Nat × E)) (k : Nat) (v : E) :
    List (Nat × E) :=
  if m.any (fun p => p.1 == k) then
    m.map (fun p => if p.1 == k then (k, v) else p)
  else
    m ++ [(k, v)]

/-- Go: brv.removeRemoteClient — delete(peerToRemoteClient, pc). -/
def removeRemoteClient {E : Type} (m : List (Nat × E)) (k : Nat) :
    List (Nat × E) :=
  m.filter (fun p => !(p.1 == k))

/-- Go: brv.getRemoteClients — shallow copy of the current values,
taken under the lock. -/
def getRemoteClients {E : Type} (m : List (Nat × E)) : List E :=
  m.map (fun p => p.2)

/-! ## Ready gate and per-connection attach
(Handler, lines 327-344: once ICE connects, the goroutine registers the
client and fires readyOnce.Do, which closes readyCh and starts the two
pipeline loops). -/

/-- State of a basicRemoteView relevant to attach events: the client map,
whether readyCh has been closed, and how many times the pair of pipeline
loops has been started. -/
structure ViewState (E : Type) where
  clients : List (Nat × E)
  readyFired : Bool
  pipelinesStarted : Nat
  deriving Repr, DecidableEq

/-- State of a freshly constructed view (NewRemoteView): empty client map,
readyCh open, no background loops. -/
def initialViewState (E : Type) : ViewState E :=
  { clients := [], readyFired := false, pipelinesStarted := 0 }

/-- Go: the tail of the per-connection goroutine in Handler — after ICE
connects it calls addRemoteClient and then readyOnce.Do, whose body
closes readyCh and starts processInputFrames and processOutputFrames.
sync.Once runs the body only if it has never run before. -/
def attachStep {E : Type} (s : ViewState E) (ev : Nat × E) : ViewState E :=
  let cl := addRemoteClient s.clients ev.1 ev.2
  if s.readyFired then
    { s with clients := cl }
  else
    { clients := cl, readyFired := true,
      pipelinesStarted := s.pipelinesStarted + 1 }

/-- Run a sequence of attach events from a given state. -/
def runAttaches {E : Type} (s : ViewState E) (evs : List (Nat × E)) :
    ViewState E :=
  evs.foldl attachStep s

lemma attachStep_preserves_ready {E : Type} (s : ViewState E) (ev : Nat × E)
    (h : s.readyFired = true) :
    (attachStep s ev).readyFired = true ∧
      (attachStep s ev).pipelinesStarted = s.pipelinesStarted := by
  simp [attachStep, h]

lemma runAttaches_preserves_ready {E : Type} (evs : List (Nat × E))
    (s : ViewState E) (h : s.readyFired = true) :
    (runAttaches s evs).readyFired = true ∧
      (runAttaches s evs).pipelinesStarted = s.pipelinesStarted := by
  induction evs generalizing s with
  | nil => exact ⟨h, rfl⟩
  | cons ev rest ih =>
    have hs := attachStep_preserves_ready s ev h
    have hr := ih (attachStep s ev) hs.1
    exact ⟨hr.1, by rw [runAttaches] at hr ⊢; simp only [List.foldl] ; rw [hr.2, hs.2]⟩

/-! ## Frame pipeline (processInputFrames / processOutputFrames / initCodec) -/

/-- A raw image as the pipeline sees it: only its bounds matter to the
pipeline itself (frame.Bounds().Dx(), Dy()). Encoders additionally
receive the image value, which the embedding keeps abstract through
these bounds. -/
structure Image where
  dx : Nat
  dy : Nat
  deriving Repr, DecidableEq

/-- Result of one encoder.Encode call: Go returns (encodedFrame, err);
the loop checks err first, then whether encodedFrame is nil. -/
inductive EncResult (A : Type) where
  | fail (e : String)
  | noOutput
  | sample (s : A)
  deriving Repr, DecidableEq

/-- An encoder instance as returned by the EncoderFactory: a step
function over an internal codec state S (real encoders buffer frames,
e.g. B-frames), together with its starting state. -/
structure EncoderInst (S A : Type) where
  step : S → Image → S × EncResult A
  start : S

/-- Go: brv.initCodec(width, height) — errors if the encoder is already
set, otherwise calls config.EncoderFactory.New(width, height, logger).
The second component records the factory calls made (width, height);
the first is none exactly when initCodec returned an error. -/
def initCodec {S A : Type} (factory : Nat → Nat → Option (EncoderInst S A))
    (current : Option (EncoderInst S A × S)) (width height : Nat) :
    Option (EncoderInst S A × S) × List (Nat × Nat) :=
  match current with
  | some _ => (none, [])
  | none =>
    match factory width height with
    | none => (none, [(width, height)])
    | some inst => (some (inst, inst.start), [(width, height)])

/-- Everything observable about one run of the encode loop: the factory
calls made by initCodec, the result of each encoder.Encode call in
order, and the samples pushed to outputFrames in order. -/
structure EncodeTrace (A : Type) where
  initCalls : List (Nat × Nat)
  encodeResults : List (EncResult A)
  outputs : List A
  deriving Repr, DecidableEq

/-- Go: brv.processInputFrames — drains inputFrames (modelled as the
list of values the loop consumes, nil frames as none); skips nil
frames; on the first non-nil frame initializes the codec from its
bounds, logging and returning on error; encodes each frame, logging and
skipping on error; pushes non-nil encoded frames to outputFrames.
Arguments mirror the loop state: the firstFrame flag and brv.encoder
together with its internal codec state (none = nil encoder; calling
Encode on a nil encoder would crash the loop, which the model renders
as an empty remaining trace — that state is unreachable from the
start state (true, none)). -/
def processInputFrames {S A : Type}
    (factory : Nat → Nat → Option (EncoderInst S A)) :
    Bool → Option (EncoderInst S A × S) → List (Option Image) →
    EncodeTrace A
  | _, _, [] => { initCalls := [], encodeResults := [], outputs := [] }
  | first, enc, none :: rest => processInputFrames factory first enc rest
  | true, enc, some img :: rest =>
    match initCodec factory enc img.dx img.dy with
    | (none, calls) =>
      { initCalls := calls, encodeResults := [], outputs := [] }
    | (some es, calls) =>
      let stepOut := es.1.step es.2 img
      let t := processInputFrames factory false (some (es.1, stepOut.1)) rest
      { initCalls := calls ++ t.initCalls,
        encodeResults := stepOut.2 :: t.encodeResults,
        outputs :=
          match stepOut.2 with
          | .sample s => s :: t.outputs
          | _ => t.outputs }
  | false, none, some _ :: _ =>
    { initCalls := [], encodeResults := [], outputs := [] }
  | false, some es, some img :: rest =>
    let stepOut := es.1.step es.2 img
    let t := processInputFrames factory false (some (es.1, stepOut.1)) rest
    { initCalls := t.initCalls,
      encodeResults := stepOut.2 :: t.encodeResults,
      outputs :=
        match stepOut.2 with
        | .sample s => s :: t.outputs
        | _ => t.outputs }

/-- The first non-nil image in the pushed sequence, if any. -/
def firstSome : List (Option Image) → Option Image
  | [] => none
  | none :: rest => firstSome rest
  | some img :: _ => some img

/-- The ordered samples among a list of encode results (the images for
which the encoder returned a non-empty sample). -/
def sampleOutputs {A : Type} (rs : List (EncResult A)) : List A :=
  rs.filterMap fun r =>
    match r with
    | .sample s => some s
    | _ => none

/-- A remote client video track as the fan-out loop uses it:
WriteSample returns none on success, some error otherwise. -/
def SampleSink (A : Type) : Type := A → Option String

/-- Go: the inner loop of processOutputFrames over the snapshot of
remote clients, with the index of each client in the snapshot: calls
WriteSample on each client in order; on the first error it panics,
making no further calls. Returns the (client index, sample) calls made
and the panic value if any. -/
def fanOutFrameGo {A : Type} (out : A) :
    List (SampleSink A) → Nat → List (Nat × A) × Option String
  | [], _ => ([], none)
  | c :: cs, i =>
    match c out with
    | some e => ([(i, out)], some e)
    | none =>
      let t := fanOutFrameGo out cs (i + 1)
      ((i, out) :: t.1, t.2)

/-- One iteration of processOutputFrames: fan one encoded frame out to
the snapshot of remote clients. -/
def fanOutFrame {A : Type} (clients : List (SampleSink A)) (out : A) :
    List (Nat × A) × Option String :=
  fanOutFrameGo out clients 0

/-- Go: brv.processOutputFrames — drains outputFrames, writing each
sample to every remote client in the snapshot; a WriteSample error
panics, aborting the process (so no later frame is written either).
The client snapshot is held fixed across the run (no registry mutation
during it). Returns all (client index, sample) WriteSample calls in
order and the panic value if any. -/
def processOutputFrames {A : Type} (clients : List (SampleSink A)) :
    List A → List (Nat × A) × Option String
  | [] => ([], none)
  | out :: rest =>
    let t := fanOutFrame clients out
    match t.2 with
    | some e => (t.1, some e)
    | none =>
      let t2 := processOutputFrames clients rest
      (t.1 ++ t2.1, t2.2)

/-- The samples a given connection (by snapshot index) observes being
written to its track, in order. -/
def observedWrites {A : Type} (calls : List (Nat × A)) (i : Nat) :
    List A :=
  (calls.filter (fun p => p.1 == i)).map (fun p => p.2)

/-- The pushed sequence with the nil frames dropped. -/
def dropNilFrames : List (Option Image) → List (Option Image)
  | [] => []
  | none :: rest => dropNilFrames rest
  | some img :: rest => some img :: dropNilFrames rest

lemma processInputFrames_initCalls_false {S A : Type}
    (factory : Nat → Nat → Option (EncoderInst S A)) :
    ∀ (fs : List (Option Image)) (enc : Option (EncoderInst S A × S)),
      (processInputFrames factory false enc fs).initCalls = [] := by
  intro fs
  induction fs with
  | nil => intro enc; simp [processInputFrames]
  | cons of rest ih =>
    intro enc
    cases of with
    | none => simp only [processInputFrames]; exact ih enc
    | some img =>
      cases enc with
      | none => rfl
      | some es =>
        simp only [processInputFrames]
        exact ih _

lemma processInputFrames_initCalls_true {S A : Type}
    (factory : Nat → Nat → Option (EncoderInst S A)) :
    ∀ fs : List (Option Image),
      (processInputFrames factory true none fs).initCalls =
        (match firstSome fs with
          | none => []
          | some img => [(img.dx, img.dy)]) := by
  intro fs
  induction fs with
  | nil => simp [processInputFrames, firstSome]
  | cons of rest ih =>
    cases of with
    | none => simp only [processInputFrames, firstSome]; exact ih
    | some img =>
      simp only [processInputFrames, firstSome, initCodec]
      cases hf : factory img.dx img.dy with
      | none => rfl
      | some inst =>
        simp only [processInputFrames_initCalls_false, List.append_nil]

lemma processInputFrames_dropNil {S A : Type}
    (factory : Nat → Nat → Option (EncoderInst S A)) :
    ∀ (fs : List (Option Image)) (first : Bool)
      (enc : Option (EncoderInst S A × S)),
      processInputFrames factory first enc fs =
        processInputFrames factory first enc (dropNilFrames fs) := by
  intro fs
  induction fs with
  | nil => intro first enc; rfl
  | cons of rest ih =>
    intro first enc
    cases of with
    | none =>
      rw [dropNilFrames]
      rw [show processInputFrames factory first enc (none :: rest) =
        processInputFrames factory first enc rest from by
          simp only [processInputFrames]]
      exact ih first enc
    | some img =>
      show processInputFrames factory first enc (some img :: rest) =
        processInputFrames factory first enc (some img :: dropNilFrames rest)
      cases first with
      | false =>
        cases enc with
        | none => rfl
        | some es =>
          simp only [processInputFrames]
          rw [ih false (some (es.1, (es.1.step es.2 img).1))]
      | true =>
        simp only [processInputFrames]
        cases hc : initCodec factory enc img.dx img.dy with
        | mk r calls =>
          cases r with
          | none => rfl
          | some es =>
            simp only [ih false (some (es.1, (es.1.step es.2 img).1))]

lemma processInputFrames_outputs {S A : Type}
    (factory : Nat → Nat → Option (EncoderInst S A)) :
    ∀ (fs : List (Option Image)) (first : Bool)
      (enc : Option (EncoderInst S A × S)),
      (processInputFrames factory first enc fs).outputs =
        sampleOutputs (processInputFrames factory first enc fs).encodeResults := by
  intro fs
  induction fs with
  | nil => intro first enc; simp [processInputFrames, sampleOutputs]
  | cons of rest ih =>
    intro first enc
    cases of with
    | none => simp only [processInputFrames]; exact ih first enc
    | some img =>
      cases first with
      | false =>
        cases enc with
        | none => rfl
        | some es =>
          simp only [processInputFrames, sampleOutputs, List.filterMap_cons]
          cases (es.1.step es.2 img).2 with
          | fail e => exact ih false _
          | noOutput => exact ih false _
          | sample s =>
            simp only [sampleOutputs] at ih
            rw [ih false _]
      | true =>
        simp only [processInputFrames]
        cases hc : initCodec factory enc img.dx img.dy with
        | mk r calls =>
          cases r with
          | none => rfl
          | some es =>
            simp only [sampleOutputs, List.filterMap_cons]
            cases (es.1.step es.2 img).2 with
            | fail e => exact ih false _
            | noOutput => exact ih false _
            | sample s =>
              simp only [sampleOutputs] at ih
              rw [ih false _]

lemma fanOutFrameGo_ok_filter {A : Type} (out : A) (i : Nat) :
    ∀ (cs : List (SampleSink A)) (off : Nat),
      (∀ c ∈ cs, c out = none) →
      (fanOutFrameGo out cs off).2 = none ∧
        ((fanOutFrameGo out cs off).1.filter (fun p => p.1 == i)).map
            (fun p => p.2) =
          (if off ≤ i ∧ i < off + cs.length then [out] else []) := by
  intro cs
  induction cs with
  | nil =>
    intro off _
    refine ⟨rfl, ?_⟩
    rw [if_neg]
    · rfl
    · rintro ⟨h1, h2⟩
      simp only [List.length_nil] at h2
      omega
  | cons c cs ih =>
    intro off hall
    have hc : c out = none := hall c (List.mem_cons_self c cs)
    have ihs := ih (off + 1) (fun d hd => hall d (List.mem_cons_of_mem c hd))
    simp only [fanOutFrameGo, hc]
    refine ⟨ihs.1, ?_⟩
    simp only [List.filter_cons, List.length_cons]
    by_cases hoi : off = i
    · subst hoi
      simp only [beq_self_eq_true, if_pos]
      simp only [List.map_cons, ihs.2]
      rw [if_neg (by rintro ⟨h1, h2⟩; omega)]
      rw [if_pos (by constructor <;> omega)]
    · rw [if_neg (by simp [hoi])]
      rw [ihs.2]
      by_cases hlt : off + 1 ≤ i ∧ i < off + 1 + cs.length
      · rw [if_pos hlt, if_pos (by omega)]
      · rw [if_neg hlt, if_neg (by intro hx; apply hlt; omega)]

lemma processOutputFrames_ok {A : Type} :
    ∀ (outs : List A) (clients : List (SampleSink A)) (i : Nat),
      (∀ c ∈ clients, ∀ s, c s = none) → i < clients.length →
      observedWrites (processOutputFrames clients outs).1 i = outs := by
  intro outs
  induction outs with
  | nil => intro clients i _ _; rfl
  | cons out rest ih =>
    intro clients i hall hi
    have hfan := fanOutFrameGo_ok_filter out i clients 0
      (fun c hc => hall c hc out)
    simp only [processOutputFrames, fanOutFrame, hfan.1]
    simp only [observedWrites, List.filter_append, List.map_append]
    have hobs : ((fanOutFrameGo out clients 0).1.filter
        (fun p => p.1 == i)).map (fun p => p.2) = [out] := by
      rw [hfan.2, if_pos (by constructor <;> omega)]
    rw [hobs]
    have := ih clients i hall hi
    simp only [observedWrites] at this
    rw [this]
    rfl

lemma fanOutFrameGo_fail {A : Type} (out : A) (e : String)
    (bad : SampleSink A) (ds : List (SampleSink A)) (hbad : bad out = some e) :
    ∀ (cs : List (SampleSink A)) (off : Nat), (∀ c ∈ cs, c out = none) →
      (fanOutFrameGo out (cs ++ bad :: ds) off).2 = some e ∧
        (fanOutFrameGo out (cs ++ bad :: ds) off).1.length = cs.length + 1 := by
  intro cs
  induction cs with
  | nil =>
    intro off _
    rw [List.nil_append]
    simp [fanOutFrameGo, hbad]
  | cons c cs ih =>
    intro off hall
    have hc : c out = none := hall c (List.mem_cons_self c cs)
    have ihs := ih (off + 1) (fun d hd => hall d (List.mem_cons_of_mem c hd))
    rw [List.cons_append]
    simp only [fanOutFrameGo, hc]
    refine ⟨ihs.1, ?_⟩
    simp only [List.length_cons, ihs.2]

/-! ## Side channel (dataChannel.OnMessage in Handler, lines 218-253) -/

/-- A command envelope with a name and an argument payload.
Modelled from the spec: the Command type itself is defined outside src. -/
structure Command where
  name : String
  args : String
  deriving Repr, DecidableEq

/-- A response envelope: a payload plus a flag indicating whether it is
text or binary (resp.isText, resp.data).
Modelled from the spec: the Response type itself is defined outside src. -/
structure CommandResponse where
  isText : Bool
  data : String
  deriving Repr, DecidableEq

/-- The command registry: the name-to-handler mapping; a handler maps the
arguments to an optional response or an error.
Modelled from the spec: NewCommandRegistry is defined outside src. -/
abbrev CommandRegistry : Type :=
  List (String × (String → Except String (Option CommandResponse)))

/-- Modelled from the spec: CommandRegistry.Process, defined outside src —
looks the handler up by exact name match; unknown names yield a
no-such-command error; handler responses and handler-internal errors are
returned as-is, not swallowed. -/
def processCommand (registry : CommandRegistry) (cmd : Command) :
    Except String (Option CommandResponse) :=
  match registry.find? (fun p => p.1 == cmd.name) with
  | none => .error ("no such command " ++ cmd.name)
  | some p => p.2 cmd.args

/-- One inbound data channel message (webrtc.DataChannelMessage): the
IsString flag and the payload bytes. -/
structure DataChannelMessage where
  isString : Bool
  data : String
  deriving Repr, DecidableEq

/-- The externally visible actions of one run of the data channel
OnMessage callback, in order: text and binary replies sent on that same
peer's data channel, invocation of the installed data handler, and the
call of the nil handler function that Go reaches when brv.onDataHandler
is nil and control falls out of the dispatch block (a runtime panic). -/
inductive DataAction where
  | sentText (s : String)
  | sentBinary (b : String)
  | handlerInvoked (bytes : String)
  | nilHandlerCall
  deriving Repr, DecidableEq

/-- Go: the dataChannel.OnMessage callback installed by Handler.
unmarshal stands for UnmarshalCommand (modelled from the spec: parses a
text command envelope, returning an error on malformed input);
hasDataHandler is whether SetOnDataHandler installed a handler
(brv.onDataHandler non-nil). The control flow is mirrored exactly: the
dispatch block runs only when no handler is installed; its non-text
response path sends the binary response and then, not returning, falls
through to the call of brv.onDataHandler, which is nil there. -/
def onDataMessage (unmarshal : String → Except String Command)
    (registry : CommandRegistry) (hasDataHandler : Bool)
    (msg : DataChannelMessage) : List DataAction :=
  if hasDataHandler then
    [.handlerInvoked msg.data]
  else
    if !msg.isString then
      []
    else
      match unmarshal msg.data with
      | .error e => [.sentText e]
      | .ok cmd =>
        match processCommand registry cmd with
        | .error e => [.sentText e]
        | .ok none => []
        | .ok (some resp) =>
          if resp.isText then
            [.sentText resp.data]
          else
            [.sentBinary resp.data, .nilHandlerCall]

/-! ## Click channel (clickChannel.OnMessage in Handler, lines 262-279) -/

/-- Numeric value of a list of decimal digit characters. -/
def digitsVal (ds : List Char) : Nat :=
  ds.foldl (fun a c => a * 10 + (c.toNat - 48)) 0

/-- Go: strings.Split on the comma separator, over the character list of
the message. -/
def splitComma : List Char → List (List Char)
  | [] => [[]]
  | c :: rest =>
    if c == ',' then
      [] :: splitComma rest
    else
      match splitComma rest with
      | [] => [[c]]
      | g :: gs => (c :: g) :: gs

/-- Parse an unsigned decimal mantissa — digit runs around at most one
dot, at least one digit in total — as an exact rational. -/
def parseMantissa (cs : List Char) : Option ℚ :=
  match cs.splitOn '.' with
  | [as] =>
    if !as.isEmpty && as.all Char.isDigit then
      some (mkRat (digitsVal as) 1)
    else none
  | [as, bs] =>
    if (!as.isEmpty || !bs.isEmpty) && as.all Char.isDigit
        && bs.all Char.isDigit then
      some (mkRat (digitsVal as * 10 ^ bs.length + digitsVal bs) (10 ^ bs.length))
    else none
  | _ => none

/-- Go: strconv.ParseFloat(s, 32), idealized over exact decimal
rationals: the rounding of the decimal to the nearest binary float32 is
not modelled (for the inputs the claims exercise, the rounding never
crosses an integer boundary, so the truncated coordinates agree). The
model accepts an optional sign and a simple decimal mantissa; Go
additionally accepts exponent and hexadecimal forms, which no claim
exercises. -/
def parseFloatQ (cs : List Char) : Option ℚ :=
  match cs with
  | '-' :: rest => (parseMantissa rest).map (fun q => -q)
  | '+' :: rest => parseMantissa rest
  | _ => parseMantissa cs

/-- Go int(x): truncation toward zero (Int.tdiv truncates toward zero). -/
def truncToInt (q : ℚ) : Int :=
  q.num.tdiv (q.den : Int)

/-- Outcome of one run of the clickChannel.OnMessage callback. -/
inductive ClickOutcome where
  | ignored
  | panicked
  | invoked (x y : Int)
  deriving Repr, DecidableEq

/-- Go: the clickChannel.OnMessage callback installed by Handler: returns
at once when no click handler is installed; splits the message on commas
and panics unless there are exactly two fields; parses each field as a
float, panicking on error; invokes the handler once with the truncated
coordinates. -/
def onClickMessage (hasClickHandler : Bool) (data : String) : ClickOutcome :=
  if !hasClickHandler then
    .ignored
  else
    match splitComma data.toList with
    | [a, b] =>
      match parseFloatQ a, parseFloatQ b with
      | some x, some y => .invoked (truncToInt x) (truncToInt y)
      | _, _ => .panicked
    | _ => .panicked

end GoStream

namespace DirectInput

/-! ## Input relay (package input/direct: Handle with HandleKey and
HandlePtr) -/

/-- Modelled from the spec: the key type tag value of the input package
RawEvent discriminator, outside src. -/
def keyEventType : String := "key"

/-- Modelled from the spec: the mouse type tag value of the input package
RawEvent discriminator, outside src. -/
def mouseEventType : String := "mouse"

/-- An inbound relay payload as the json.Unmarshal calls in Handle see
it: the type field recovered by the RawEvent parse (the empty string —
the Go zero value — when the payload is unparseable or has no type
field, since the error is discarded), and the payload re-parsed against
each variant shape (K the KeyEvent shape, M the MouseEvent shape;
json.Unmarshal with a discarded error always leaves a value, partially
zero on failure). Modelled from the spec: the input package defining
RawEvent, KeyEvent and MouseEvent is outside src. -/
structure RawPayload (K M : Type) where
  rawType : String
  keyView : K
  mouseView : M
  deriving Repr, DecidableEq

/-- The handler invocations performed by one Handle call. -/
inductive RelayAction (K M : Type) where
  | handleKey (ev : K)
  | handlePtr (ev : M)
  deriving Repr, DecidableEq

/-- Go: direct.Handle — unmarshals the payload as a RawEvent ignoring
errors, switches on the recovered type tag, re-parses the payload
against the matching variant shape and invokes HandleKey or HandlePtr;
a tag matching neither case falls out of the switch silently. -/
def Handle {K M : Type} (p : RawPayload K M) : List (RelayAction K M) :=
  if p.rawType == keyEventType then
    [.handleKey p.keyView]
  else if p.rawType == mouseEventType then
    [.handlePtr p.mouseView]
  else
    []

end DirectInput

/-! # Claim theorems -/

/-- C8: For every registry state and every identity not present in the
registry, removeRemoteClient leaves the registry unchanged, and a
subsequent getRemoteClients snapshot returns exactly the entries present
before the remove. -/
theorem C8_remove_absent_noop {E : Type} (m : List (Nat × E)) (k : Nat)
    (habs : ∀ p ∈ m, p.1 ≠ k) :
    GoStream.removeRemoteClient m k = m ∧
      GoStream.getRemoteClients (GoStream.removeRemoteClient m k) =
        GoStream.getRemoteClients m := by
  have hrm : GoStream.removeRemoteClient m k = m := by
    apply List.filter_eq_self.mpr
    intro p hp
    simpa using habs p hp
  exact ⟨hrm, by rw [hrm]⟩

/-- C8 witness: removing absent identity 3 from a two-entry registry is a
no-op and the snapshot is unchanged. -/
theorem C8_remove_absent_noop_witness :
    GoStream.removeRemoteClient [(1, 10), (2, 20)] 3 = [(1, 10), (2, 20)] ∧
      GoStream.getRemoteClients
          (GoStream.removeRemoteClient [(1, 10), (2, 20)] 3) =
        GoStream.getRemoteClients [(1, 10), (2, 20)] :=
  C8_remove_absent_noop [(1, 10), (2, 20)] 3 (by decide)

/-- C3: starting from a fresh view, any nonempty sequence of attach events
leaves the ready signal fired with the pipeline loops started exactly once
(the first attach fires it, later attaches never re-fire it), and from any
state where the signal has fired, a further attach keeps it fired and does
not start the loops again. -/
theorem C3_ready_fires_once {E : Type} (evs : List (Nat × E))
    (hne : evs ≠ []) :
    ((GoStream.runAttaches (GoStream.initialViewState E) evs).readyFired = true ∧
      (GoStream.runAttaches (GoStream.initialViewState E) evs).pipelinesStarted = 1) ∧
    (∀ (s : GoStream.ViewState E) (ev : Nat × E), s.readyFired = true →
      (GoStream.attachStep s ev).readyFired = true ∧
        (GoStream.attachStep s ev).pipelinesStarted = s.pipelinesStarted) := by
  refine ⟨?_, fun s ev h => GoStream.attachStep_preserves_ready s ev h⟩
  match evs with
  | [] => exact absurd rfl hne
  | ev :: rest =>
    have hfirst : (GoStream.attachStep (GoStream.initialViewState E) ev).readyFired = true ∧
        (GoStream.attachStep (GoStream.initialViewState E) ev).pipelinesStarted = 1 := by
      simp [GoStream.attachStep, GoStream.initialViewState]
    have hrun := GoStream.runAttaches_preserves_ready rest
      (GoStream.attachStep (GoStream.initialViewState E) ev) hfirst.1
    constructor
    · show (GoStream.runAttaches _ (ev :: rest)).readyFired = true
      rw [GoStream.runAttaches, List.foldl]
      exact (GoStream.runAttaches_preserves_ready rest _ hfirst.1).1
    · show (GoStream.runAttaches _ (ev :: rest)).pipelinesStarted = 1
      rw [GoStream.runAttaches, List.foldl]
      have := (GoStream.runAttaches_preserves_ready rest _ hfirst.1).2
      rw [GoStream.runAttaches] at this
      rw [this, hfirst.2]

/-- Concrete encoder factory for witnesses: a stateless encoder that
reports no output for images of width 2 and otherwise emits the image
width as the sample. -/
def witnessFactory : Nat → Nat → Option (GoStream.EncoderInst Unit Nat) :=
  fun _ _ =>
    some { step := fun st img =>
            (st, if img.dx == 2 then .noOutput else .sample img.dx),
           start := () }

/-- Concrete pushed sequence for witnesses: a nil frame, then images of
widths 1, 2 and 3. -/
def witnessFrames : List (Option GoStream.Image) :=
  [none, some { dx := 1, dy := 1 }, some { dx := 2, dy := 2 },
    some { dx := 3, dy := 3 }]

/-- C2: over any pushed sequence, the encoder factory is called at most
once, and when the sequence has a first non-nil image the single factory
call passes exactly that image's bounds; later images never cause a
second call. -/
theorem C2_encoder_init_once {S A : Type}
    (factory : Nat → Nat → Option (GoStream.EncoderInst S A))
    (frames : List (Option GoStream.Image)) :
    (GoStream.processInputFrames factory true none frames).initCalls.length ≤ 1 ∧
      (∀ img, GoStream.firstSome frames = some img →
        (GoStream.processInputFrames factory true none frames).initCalls =
          [(img.dx, img.dy)]) := by
  have h := GoStream.processInputFrames_initCalls_true factory frames
  cases hf : GoStream.firstSome frames with
  | none =>
    rw [hf] at h
    refine ⟨by rw [h]; exact Nat.zero_le 1, ?_⟩
    intro img himg
    simp at himg
  | some img0 =>
    rw [hf] at h
    refine ⟨by rw [h]; exact le_refl 1, ?_⟩
    intro img himg
    have himg2 : img0 = img := by injection himg
    rw [h, ← himg2]

/-- C2 witness: on the witness sequence the factory is called exactly
once, with the bounds (1, 1) of the first non-nil image. -/
theorem C2_encoder_init_once_witness :
    (GoStream.processInputFrames witnessFactory true none
        witnessFrames).initCalls = [(1, 1)] :=
  (C2_encoder_init_once witnessFactory witnessFrames).2
    { dx := 1, dy := 1 } rfl

/-- C10: the encode loop skips nil images entirely: a leading nil frame
leaves the whole run trace unchanged (no encode call, no output, no
encoder init even though it was the first value pushed), and in general
the run trace equals that of the nil-free subsequence, so the encoder is
sized from the first non-nil image. -/
theorem C10_nil_frames_skipped {S A : Type}
    (factory : Nat → Nat → Option (GoStream.EncoderInst S A))
    (frames : List (Option GoStream.Image)) :
    GoStream.processInputFrames factory true none (none :: frames) =
        GoStream.processInputFrames factory true none frames ∧
      GoStream.processInputFrames factory true none frames =
        GoStream.processInputFrames factory true none
          (GoStream.dropNilFrames frames) :=
  ⟨by simp only [GoStream.processInputFrames],
    GoStream.processInputFrames_dropNil factory frames true none⟩

/-- C1: with a snapshot of attached connections whose writes all succeed,
every connection observes exactly the writeSample calls for the images on
which the encoder returned a non-empty sample — one call per such image,
in the order the images were pushed; encoder no-output results and encode
errors produce no call. -/
theorem C1_per_connection_writes {S A : Type}
    (factory : Nat → Nat → Option (GoStream.EncoderInst S A))
    (frames : List (Option GoStream.Image))
    (clients : List (GoStream.SampleSink A)) (i : Nat)
    (hok : ∀ c ∈ clients, ∀ s, c s = none) (hi : i < clients.length) :
    GoStream.observedWrites
        (GoStream.processOutputFrames clients
          (GoStream.processInputFrames factory true none frames).outputs).1 i =
      GoStream.sampleOutputs
        (GoStream.processInputFrames factory true none frames).encodeResults := by
  rw [GoStream.processOutputFrames_ok _ clients i hok hi]
  exact GoStream.processInputFrames_outputs factory frames true none

/-- C1 witness: the spec scenario — three images where the encoder yields
a sample for images 1 and 3 but none for image 2, one attached connection:
that connection observes exactly the two samples, in order. -/
theorem C1_per_connection_writes_witness :
    GoStream.observedWrites
        (GoStream.processOutputFrames
          [(fun _ => none : GoStream.SampleSink Nat)]
          (GoStream.processInputFrames witnessFactory true none
            witnessFrames).outputs).1 0 =
      GoStream.sampleOutputs
        (GoStream.processInputFrames witnessFactory true none
          witnessFrames).encodeResults ∧
    GoStream.sampleOutputs
        (GoStream.processInputFrames witnessFactory true none
          witnessFrames).encodeResults = [1, 3] :=
  ⟨C1_per_connection_writes witnessFactory witnessFrames
      [(fun _ => none : GoStream.SampleSink Nat)] 0
      (fun c hc s => by rcases List.mem_singleton.mp hc with rfl; rfl)
      (by simp),
    by rfl⟩

/-- C5: a writeSample failure to any one connection during fan-out is
fatal: the fan-out loop panics with that error, the failing call is the
last WriteSample call made, and neither the remaining connections of the
snapshot nor any later frame receives a call. -/
theorem C5_write_failure_fatal {A : Type} (out : A) (e : String)
    (cs ds : List (GoStream.SampleSink A)) (bad : GoStream.SampleSink A)
    (rest : List A) (hbad : bad out = some e)
    (hok : ∀ c ∈ cs, c out = none) :
    (GoStream.processOutputFrames (cs ++ bad :: ds) (out :: rest)).2 = some e ∧
      (GoStream.processOutputFrames (cs ++ bad :: ds) (out :: rest)).1.length =
        cs.length + 1 := by
  have h := GoStream.fanOutFrameGo_fail out e bad ds hbad cs 0 hok
  have hmain : GoStream.processOutputFrames (cs ++ bad :: ds) (out :: rest) =
      ((GoStream.fanOutFrameGo out (cs ++ bad :: ds) 0).1, some e) := by
    simp only [GoStream.processOutputFrames, GoStream.fanOutFrame, h.1]
  rw [hmain]
  exact ⟨rfl, h.2⟩

/-- C5 witness: three connections where the second fails on sample 7 —
the run panics with that error after exactly two WriteSample calls; the
third connection and the later sample 8 are never written. -/
theorem C5_write_failure_fatal_witness :
    (GoStream.processOutputFrames
        ([fun _ => none, fun _ => some "write failed", fun _ => none] :
          List (GoStream.SampleSink Nat))
        [7, 8]).2 = some "write failed" ∧
      (GoStream.processOutputFrames
        ([fun _ => none, fun _ => some "write failed", fun _ => none] :
          List (GoStream.SampleSink Nat))
        [7, 8]).1.length = 2 :=
  C5_write_failure_fatal 7 "write failed"
    [fun _ => none] [fun _ => none] (fun _ => some "write failed") [8] rfl
    (fun c hc => by rcases List.mem_singleton.mp hc with rfl; rfl)

/-- C3 witness: two attaches with distinct identities fire ready once and
start the loops exactly once; a further attach on a fired state changes
nothing about the gate. -/
theorem C3_ready_fires_once_witness :
    ((GoStream.runAttaches (GoStream.initialViewState Nat) [(1, 5), (2, 6)]).readyFired = true ∧
      (GoStream.runAttaches (GoStream.initialViewState Nat) [(1, 5), (2, 6)]).pipelinesStarted = 1) ∧
    (∀ (s : GoStream.ViewState Nat) (ev : Nat × Nat), s.readyFired = true →
      (GoStream.attachStep s ev).readyFired = true ∧
        (GoStream.attachStep s ev).pipelinesStarted = s.pipelinesStarted) :=
  C3_ready_fires_once [(1, 5), (2, 6)] (by decide)

/-- Concrete unmarshal for witnesses: any text parses to a command named
by the whole text with empty arguments. -/
def witnessUnmarshal : String → Except String GoStream.Command :=
  fun s => .ok { name := s, args := "" }

/-- Concrete registry for witnesses: one command named blob whose handler
returns a binary response. -/
def witnessRegistry : GoStream.CommandRegistry :=
  [("blob", fun _ => .ok (some { isText := false, data := "bin" }))]

/-- C4: evaluation of the data channel OnMessage callback at the failing
input. With a data handler installed, the message bytes go to the
handler and command dispatch is bypassed, as the claim states. With no
data handler installed and a command whose handler returns a binary
response, the dispatch block sends the response and then — the branch
does not return — control reaches the call of the nil data handler, a
runtime panic, contradicting the claim that such a message is handled by
command dispatch only. -/
theorem C4_nil_handler_fall_through :
    GoStream.onDataMessage witnessUnmarshal witnessRegistry true
        { isString := true, data := "blob" } =
      [.handlerInvoked "blob"] ∧
    GoStream.onDataMessage witnessUnmarshal witnessRegistry false
        { isString := true, data := "blob" } =
      [.sentBinary "bin", .nilHandlerCall] :=
  ⟨rfl, rfl⟩

/-- C6: with no data handler installed, a text message holding a
well-formed envelope is dispatched; a command name absent from the
registry always yields a process error, and whenever processing a
command errors — unknown name or handler-internal error — that error
text is the only action: it is sent back as a text reply on the same
peer's data channel, and no response payload is sent. -/
theorem C6_command_errors_replied (registry : GoStream.CommandRegistry)
    (unmarshal : String → Except String GoStream.Command) :
    (∀ cmd : GoStream.Command, (∀ p ∈ registry, p.1 ≠ cmd.name) →
      ∃ e, GoStream.processCommand registry cmd = .error e) ∧
    (∀ (msg : GoStream.DataChannelMessage) (cmd : GoStream.Command)
        (e : String),
      msg.isString = true → unmarshal msg.data = .ok cmd →
      GoStream.processCommand registry cmd = .error e →
      GoStream.onDataMessage unmarshal registry false msg = [.sentText e]) := by
  constructor
  · intro cmd habs
    refine ⟨"no such command " ++ cmd.name, ?_⟩
    have hfind : registry.find? (fun p => p.1 == cmd.name) = none := by
      rw [List.find?_eq_none]
      intro x hx
      simp [habs x hx]
    rw [GoStream.processCommand, hfind]
  · intro msg cmd e hstr hun hproc
    simp [GoStream.onDataMessage, hstr, hun, hproc]

/-- C6 witness: a message naming the unregistered command nope yields a
process error and exactly one text error reply. -/
theorem C6_command_errors_replied_witness :
    (∃ e, GoStream.processCommand witnessRegistry
        { name := "nope", args := "" } = .error e) ∧
    GoStream.onDataMessage witnessUnmarshal witnessRegistry false
        { isString := true, data := "nope" } =
      [.sentText ("no such command " ++ "nope")] :=
  ⟨(C6_command_errors_replied witnessRegistry witnessUnmarshal).1
      { name := "nope", args := "" }
      (fun p hp => by rcases List.mem_singleton.mp hp with rfl; decide),
    (C6_command_errors_replied witnessRegistry witnessUnmarshal).2
      { isString := true, data := "nope" } { name := "nope", args := "" }
      ("no such command " ++ "nope") rfl rfl rfl⟩

/-- C7: with a click handler installed, a message splitting on commas
into exactly two parseable fields invokes the handler exactly once with
the two parsed values truncated toward zero; in particular the message
12.5,47.9 invokes it with (12, 47). -/
theorem C7_click_coordinates :
    (∀ (data : String) (a b : List Char) (x y : ℚ),
      GoStream.splitComma data.toList = [a, b] →
      GoStream.parseFloatQ a = some x →
      GoStream.parseFloatQ b = some y →
      GoStream.onClickMessage true data =
        .invoked (GoStream.truncToInt x) (GoStream.truncToInt y)) ∧
    GoStream.onClickMessage true "12.5,47.9" = .invoked 12 47 := by
  constructor
  · intro data a b x y hsplit ha hb
    simp only [String.toList] at hsplit
    simp [GoStream.onClickMessage, hsplit, ha, hb]
  · decide

/-- C7 witness: the first part of the theorem applied at the concrete
message 12.5,47.9 with its parsed values 125/10 and 479/10, whose
truncations evaluate to 12 and 47. -/
theorem C7_click_coordinates_witness :
    GoStream.onClickMessage true "12.5,47.9" = .invoked 12 47 :=
  (C7_click_coordinates.1 "12.5,47.9" "12.5".toList "47.9".toList
      (mkRat 125 10) (mkRat 479 10) (by decide) (by decide)
      (by decide)).trans (by decide)

/-- C9: Handle reads the type discriminator recovered by the RawEvent
parse and dispatches on it: a key tag invokes HandleKey once with the
payload re-parsed as a key event, a mouse tag invokes HandlePtr once
with the payload re-parsed as a mouse event, and any other tag —
including the empty tag left by an unparseable payload — invokes
neither handler. -/
theorem C9_relay_dispatch {K M : Type} (p : DirectInput.RawPayload K M) :
    (p.rawType = DirectInput.keyEventType →
      DirectInput.Handle p = [.handleKey p.keyView]) ∧
    (p.rawType = DirectInput.mouseEventType →
      DirectInput.Handle p = [.handlePtr p.mouseView]) ∧
    (p.rawType ≠ DirectInput.keyEventType →
      p.rawType ≠ DirectInput.mouseEventType →
      DirectInput.Handle p = []) := by
  refine ⟨?_, ?_, ?_⟩
  · intro h
    simp [DirectInput.Handle, h]
  · intro h
    simp [DirectInput.Handle, h, DirectInput.keyEventType,
      DirectInput.mouseEventType]
  · intro h1 h2
    simp [DirectInput.Handle, h1, h2]

/-- C9 witness: a mouse-tagged payload invokes HandlePtr with the mouse
view, and an unknown scroll tag invokes neither handler. -/
theorem C9_relay_dispatch_witness :
    DirectInput.Handle
        { rawType := "mouse", keyView := (0 : Nat), mouseView := (5 : Nat) } =
      [.handlePtr 5] ∧
    DirectInput.Handle
        { rawType := "scroll", keyView := (0 : Nat), mouseView := (5 : Nat) } =
      [] :=
  ⟨(C9_relay_dispatch _).2.1 rfl,
    (C9_relay_dispatch _).2.2 (by decide) (by decide)⟩
